import Mathlib

/-!
Verification of the response-resolution pipeline, the conversation history
store and the HTTP routes of the `ai_assistant` repository (`app.py`),
shallowly embedded in Lean.

Conventions of the embedding:
* The spell checker (`pyspellchecker`'s `spell.correction`) is an external
  collaborator; it is modelled as a parameter `corr : String → Option String`
  (`none` models Python `None`).  Python truthiness of the returned string is
  modelled explicitly (`None` and the empty string are falsy).
* The language model (`llama_cpp`) is an external collaborator; it is a
  parameter `Option (List ChatMsg → ModelOutcome)` where `none` models
  "model not loaded" and `ModelOutcome.err` models a raising call.
* Files are modelled by their parsed contents: `Option (List HistoryRecord)`
  (`none` = open/parse raises).  Timestamps (`datetime.now()`) are threaded
  as an explicit `now : String` argument.
* The OLED display calls inside the pipeline do not influence any returned
  value or stored state and are outside the scope of the claims settled
  here, so they are not part of the state.
-/

/-- One word of the knowledge base `database/prompts.json`: a record with a
`prompt` pattern and its canned `response`. -/
structure KnowledgeEntry where
  prompt : String
  response : String
deriving DecidableEq

/-- One element of the in-memory `chat_history` list kept by `AIAssistant`
(`add_to_history` appends dicts with keys timestamp/user/assistant). -/
structure Exchange where
  timestamp : String
  user : String
  assistant : String
deriving DecidableEq

/-- One element of the durable `database/history.json` array
(`save_to_history` appends dicts with keys id/prompt/response). -/
structure HistoryRecord where
  id : Nat
  prompt : String
  response : String
deriving DecidableEq

/-- One ChatML message passed to `create_chat_completion`. -/
structure ChatMsg where
  role : String
  content : String
deriving DecidableEq

/-- Outcome of the external model call: a raw completion string, or a raised
exception (`err`). -/
inductive ModelOutcome where
  | ok (raw : String)
  | err
deriving DecidableEq

/-- The external collaborators and startup-loaded configuration of
`AIAssistant`: the spell checker, the parsed `prompts.json` table and the
optional model handle. -/
structure Env where
  corr : String → Option String
  prompts_db : List KnowledgeEntry
  model : Option (List ChatMsg → ModelOutcome)

/-- The mutable state touched by the pipeline: the in-memory window
`self.chat_history` and the parsed contents of `database/history.json`
(`none` when the file cannot be opened or parsed). -/
structure AppState where
  chat_history : List Exchange
  file : Option (List HistoryRecord)
deriving DecidableEq

/-! ### Lexical normalizer (`fix_typo`, app.py lines 37-41) -/

/-- Accumulator-style splitting of a character list into maximal runs of
non-whitespace characters, modelling Python `str.split()` with no
arguments (which drops empty fields). -/
def splitWsAux : List Char → List Char → List (List Char)
  | [], acc => if acc.isEmpty then [] else [acc.reverse]
  | c :: cs, acc =>
    if c.isWhitespace then
      if acc.isEmpty then splitWsAux cs [] else acc.reverse :: splitWsAux cs []
    else
      splitWsAux cs (c :: acc)

/-- `text.split()` of Python, on character lists. -/
def splitWs (l : List Char) : List (List Char) :=
  splitWsAux l []

/-- `" ".join(words)` of Python, on character lists. -/
def joinSp : List (List Char) → List Char
  | [] => []
  | [w] => w
  | w :: ws => w ++ ' ' :: joinSp ws

/-- The per-word step of `fix_typo`:
`spell.correction(w) if spell.correction(w) else w`.  Python `None` and the
empty string are both falsy, so both fall back to the original word. -/
def correct_word (corr : String → Option String) (w : String) : String :=
  match corr w with
  | some c => if c = "" then w else c
  | none => w

/-- `fix_typo` (app.py lines 37-41): split the text into words, replace each
word by its correction when the correction is truthy, and re-join the words
with single spaces. -/
def fix_typo (corr : String → Option String) (text : String) : String :=
  ⟨joinSp ((splitWs text.data).map (fun w => (correct_word corr ⟨w⟩).data))⟩

/-! ### Executable string primitives

The corresponding Lean core functions (`String.toLower`, `String.trim`,
`String.splitOn`, `String.endsWith`) are implemented with byte-position
loops that the kernel cannot evaluate, so the Python string operations used
by `app.py` are modelled here by structurally recursive functions on
character lists. -/

/-- Python `str.lower()`. -/
def strToLower (s : String) : String :=
  ⟨s.data.map Char.toLower⟩

/-- Python `str.strip()` with no arguments: drop whitespace from both
ends. -/
def strTrim (s : String) : String :=
  ⟨((s.data.dropWhile Char.isWhitespace).reverse.dropWhile Char.isWhitespace).reverse⟩

/-- Python `s.split('. ')` on character lists: cut at each non-overlapping
occurrence of the two-character separator, scanning left to right and
keeping empty fields.  The first argument accumulates the current field in
reverse. -/
def splitDotSpace : List Char → List Char → List (List Char)
  | [], acc => [acc.reverse]
  | '.' :: ' ' :: cs, acc => acc.reverse :: splitDotSpace cs []
  | c :: cs, acc => splitDotSpace cs (c :: acc)

/-- Python `'. '.join(fields)` on character lists. -/
def joinDotSpace : List (List Char) → List Char
  | [] => []
  | [w] => w
  | w :: ws => w ++ '.' :: ' ' :: joinDotSpace ws

/-- Python `s.endswith('.')`. -/
def endsWithDot (l : List Char) : Bool :=
  match l.getLast? with
  | some '.' => true
  | _ => false

/-! ### Knowledge-base matcher (`get_prompt_from_db`, app.py lines 104-110) -/

/-- Helper for the Python substring operator: `needle.isPrefixOf` tried at
every suffix of the haystack. -/
def containsSubAux (needle : List Char) : List Char → Bool
  | [] => needle.isPrefixOf []
  | c :: rest => needle.isPrefixOf (c :: rest) || containsSubAux needle rest

/-- The Python expression `needle in hay` on strings: substring
containment. -/
def strContainsSubstr (hay needle : String) : Bool :=
  containsSubAux needle.data hay.data

/-- `get_prompt_from_db` (app.py lines 104-110): lower-case the incoming
string, run `fix_typo` on it once more, and return the response of the first
entry of `prompts_db` whose lower-cased prompt contains that string; `none`
models the Python `return None` after the loop. -/
def get_prompt_from_db (corr : String → Option String)
    (prompts_db : List KnowledgeEntry) (user_input : String) : Option String :=
  let cleaned_input := fix_typo corr (strToLower user_input)
  match prompts_db.find? (fun entry => strContainsSubstr (strToLower entry.prompt) cleaned_input) with
  | some entry => some entry.response
  | none => none

/-! ### Response generator (`generate_response`, app.py lines 112-188) -/

/-- The fixed system instruction of the ChatML message list
(app.py lines 128-133). -/
def system_message : String :=
  "You are a helpful and concise AI assistant running on a Raspberry Pi. Provide accurate, relevant answers in 1-3 sentences. If the input contains typos, respond to the corrected intent."

/-- The fixed clarification replacement (app.py line 164). -/
def clarification_prompt : String :=
  "Could you clarify or provide more details for a better response?"

/-- The fixed apology returned by the outer exception handler
(app.py line 188). -/
def apology_response : String :=
  "I apologize, but I encountered an error while processing your request."

/-- The canned fallback responses used when the model is not loaded
(app.py lines 167-172). -/
def fallback_responses : List String :=
  [ "I\x27m here to help! However, the AI model isn\x27t loaded yet.",
    "That\x27s an interesting question! The AI model is currently unavailable.",
    "I\x27d love to help with that, but I\x27m running in fallback mode right now.",
    "Great question! Please make sure the AI model is properly installed." ]

/-- Python truthiness of `db_response` (app.py line 124): `None` and the
empty string are falsy. -/
def truthy : Option String → Bool
  | some s => s != ""
  | none => false

/-- The ChatML message list built in app.py lines 128-140: the system
instruction, the last two in-memory exchanges as alternating user/assistant
turns (`self.chat_history[-2:]`), then the corrected input as the final user
turn. -/
def build_messages (chat_history : List Exchange) (cleaned_input : String) : List ChatMsg :=
  ⟨"system", system_message⟩ ::
    ((chat_history.drop (chat_history.length - 2)).flatMap
      (fun entry => [⟨"user", entry.user⟩, ⟨"assistant", entry.assistant⟩])
    ++ [⟨"user", cleaned_input⟩])

/-- The post-processing of the raw completion (app.py lines 153-160):
strip, keep at most three `". "`-separated sentences, and ensure a trailing
period. -/
def postprocess (raw : String) : String :=
  let ai := strTrim raw
  let sentences := splitDotSpace ai.data []
  let ai : String :=
    if sentences.length > 3 then ⟨joinDotSpace (sentences.take 3) ++ ['.']⟩ else ai
  if endsWithDot ai.data then ai else ai ++ "."

/-- `add_to_history` (app.py lines 190-199): append the new exchange to the
in-memory list and keep only the last 50 entries. -/
def add_to_history (chat_history : List Exchange)
    (now user_input ai_response : String) : List Exchange :=
  let h := chat_history ++ [⟨now, user_input, ai_response⟩]
  if h.length > 50 then h.drop (h.length - 50) else h

/-- `save_to_history` (app.py lines 201-216): build a record whose id is
`len(self.chat_history) + 1`, append it to the parsed contents of
`history.json` and rewrite the file, then append to the in-memory window.
When opening or parsing the file raises, the handler swallows the exception
and neither store is updated. -/
def save_to_history (st : AppState) (user_input ai_response now : String) : AppState :=
  let history_entry : HistoryRecord :=
    ⟨st.chat_history.length + 1, user_input, ai_response⟩
  match st.file with
  | some history =>
      { file := some (history ++ [history_entry])
        chat_history := add_to_history st.chat_history now user_input ai_response }
  | none => st

/-- The observable outcome of one `generate_response` call: the returned
string, how many times the model generation capability was invoked, and the
state after the call. -/
structure GenOut where
  response : String
  model_calls : Nat
  state : AppState
deriving DecidableEq

/-- `generate_response` (app.py lines 112-188): correct typos, consult the
knowledge base, otherwise call the model (post-processing its output) when
loaded, otherwise pick a canned fallback by input length; save to history and
return.  A raising model call is caught by the outer handler, which returns
the fixed apology without saving. -/
def generate_response (env : Env) (st : AppState) (user_input now : String) : GenOut :=
  let cleaned_input := fix_typo env.corr user_input
  let db_response := get_prompt_from_db env.corr env.prompts_db cleaned_input
  if truthy db_response then
    let ai_response := db_response.getD ""
    ⟨ai_response, 0, save_to_history st user_input ai_response now⟩
  else
    match env.model with
    | some model =>
        match model (build_messages st.chat_history cleaned_input) with
        | .ok raw =>
            let ai := postprocess raw
            let ai_response :=
              if strContainsSubstr (strToLower ai) (strToLower cleaned_input) || ai.length < 15 then
                clarification_prompt
              else ai
            ⟨ai_response, 1, save_to_history st user_input ai_response now⟩
        | .err => ⟨apology_response, 1, st⟩
    | none =>
        let ai_response :=
          fallback_responses.getD (cleaned_input.length % fallback_responses.length) ""
        ⟨ai_response, 0, save_to_history st user_input ai_response now⟩

/-! ### HTTP routes (`chat`, `history`; app.py lines 226-265) -/

/-- The JSON bodies the two routes can produce. -/
inductive JsonBody where
  | json_error (error : String)
  | json_chat (response timestamp : String)
  | json_list (items : List HistoryRecord)
deriving DecidableEq

/-- An HTTP status code paired with a JSON body. -/
structure HttpReply where
  status : Nat
  body : JsonBody
deriving DecidableEq

/-- The `/chat` route (app.py lines 226-254).  `data` models
`request.get_json()`: the outer `none` is a request without a JSON object
(attribute access then raises and the handler answers 500); the inner option
is the presence of the `message` field (`data.get('message', '')`).  The
trimmed message is rejected with a 400 when empty, otherwise it is passed to
`generate_response`. -/
def chat_route (env : Env) (st : AppState) (data : Option (Option String))
    (now : String) : HttpReply × AppState :=
  match data with
  | none => (⟨500, .json_error "Internal server error"⟩, st)
  | some message =>
      let user_input := strTrim (message.getD "")
      if user_input = "" then
        (⟨400, .json_error "No message provided"⟩, st)
      else
        let g := generate_response env st user_input now
        (⟨200, .json_chat g.response now⟩, g.state)

/-- The `/history` route (app.py lines 256-265): return the parsed contents
of `history.json`, or an empty array when reading or parsing raises. -/
def history_route (fileRead : Except String (List HistoryRecord)) : HttpReply :=
  match fileRead with
  | .ok history => ⟨200, .json_list history⟩
  | .error _ => ⟨200, .json_list []⟩

/-- Modelled from the spec: the `list()` operation of §4.4 of the
specification ("returns the durable list if available, else the in-memory
window, else an empty sequence"), used only to compare the specified
`/history` fallback order against the code.  The in-memory exchanges are
rendered as records with consecutive ids. -/
def history_list_spec (fileRead : Except String (List HistoryRecord))
    (window : List Exchange) : List HistoryRecord :=
  match fileRead with
  | .ok history => history
  | .error _ =>
      (window.enum.map (fun p => ⟨p.1 + 1, p.2.user, p.2.assistant⟩))

/-! ### Derived forms and concrete instances used by the theorems -/

/-- The knowledge-base scan of `get_prompt_from_db` with the containment
needle made explicit: the response of the first entry whose lower-cased
prompt contains `needle` as a substring. -/
def kb_lookup (prompts_db : List KnowledgeEntry) (needle : String) : Option String :=
  match prompts_db.find? (fun entry => strContainsSubstr (strToLower entry.prompt) needle) with
  | some entry => some entry.response
  | none => none

/-- The in-memory window obtained by appending the given exchanges, in
order, to an empty window through `add_to_history`. -/
def window_after (es : List Exchange) : List Exchange :=
  es.foldl (fun h e => add_to_history h e.timestamp e.user e.assistant) []

/-- A spell checker that never proposes a correction (every `fix_typo` call
then only normalizes whitespace). -/
def corr0 : String → Option String := fun _ => none

/-- A spell checker that rewrites the lower-case word `hello` to `hi` and
proposes nothing for any other word; it witnesses that correcting an
already-lowercased corrected string can change it again. -/
def corrX : String → Option String :=
  fun w => if w = "hello" then some "hi" else none

/-- A spell checker whose vocabulary is exactly `hello` and `world`: both
words correct to themselves and every other word has no correction. -/
def corr7 : String → Option String :=
  fun w => if w = "hello" || w = "world" then some w else none

/-- An assistant state with an empty in-memory window and an empty, readable
history file. -/
def st0 : AppState := ⟨[], some []⟩

/-! ## Helper lemmas -/

/-- Unfolding lemma: when the knowledge base yields a truthy response, the
pipeline returns it, performs no model call, and saves it. -/
theorem generate_response_db_hit (env : Env) (st : AppState) (s now r : String)
    (hdb : get_prompt_from_db env.corr env.prompts_db (fix_typo env.corr s) = some r)
    (hr : r ≠ "") :
    generate_response env st s now = ⟨r, 0, save_to_history st s r now⟩ := by
  have ht : truthy (some r) = true := by simpa [truthy] using hr
  simp only [generate_response, hdb]
  rw [if_pos ht]
  rfl

/-- Unfolding lemma: on a knowledge-base miss with a loaded model whose call
returns raw output, the pipeline post-processes, applies the degeneracy
check, and saves. -/
theorem generate_response_model_ok (env : Env) (st : AppState) (s now raw : String)
    (gen : List ChatMsg → ModelOutcome)
    (hdb : truthy (get_prompt_from_db env.corr env.prompts_db (fix_typo env.corr s)) = false)
    (hm : env.model = some gen)
    (hraw : gen (build_messages st.chat_history (fix_typo env.corr s)) = .ok raw) :
    generate_response env st s now =
      (let ai := postprocess raw
       let ai_response :=
         if strContainsSubstr (strToLower ai) (strToLower (fix_typo env.corr s))
             || ai.length < 15 then clarification_prompt else ai
       ⟨ai_response, 1, save_to_history st s ai_response now⟩) := by
  simp only [generate_response, hdb, hm, hraw, Bool.false_eq_true, if_false]

/-- Unfolding lemma: on a knowledge-base miss with a loaded model whose call
raises, the pipeline returns the apology and leaves the state unchanged. -/
theorem generate_response_model_err (env : Env) (st : AppState) (s now : String)
    (gen : List ChatMsg → ModelOutcome)
    (hdb : truthy (get_prompt_from_db env.corr env.prompts_db (fix_typo env.corr s)) = false)
    (hm : env.model = some gen)
    (hraw : gen (build_messages st.chat_history (fix_typo env.corr s)) = .err) :
    generate_response env st s now = ⟨apology_response, 1, st⟩ := by
  simp only [generate_response, hdb, hm, hraw, Bool.false_eq_true, if_false]

/-- Unfolding lemma: on a knowledge-base miss with no model loaded, the
pipeline picks the canned fallback indexed by the length of the corrected
input and saves it. -/
theorem generate_response_no_model (env : Env) (st : AppState) (s now : String)
    (hdb : truthy (get_prompt_from_db env.corr env.prompts_db (fix_typo env.corr s)) = false)
    (hm : env.model = none) :
    generate_response env st s now =
      (let ai := fallback_responses.getD
        ((fix_typo env.corr s).length % fallback_responses.length) ""
       ⟨ai, 0, save_to_history st s ai now⟩) := by
  simp only [generate_response, hdb, hm, Bool.false_eq_true, if_false]

/-- `add_to_history` always keeps exactly the last 50 elements of the
extended list. -/
theorem add_to_history_eq_drop (chat_history : List Exchange) (now u a : String) :
    add_to_history chat_history now u a
      = (chat_history ++ [Exchange.mk now u a]).drop
          ((chat_history ++ [Exchange.mk now u a]).length - 50) := by
  simp only [add_to_history]
  by_cases h : (chat_history ++ [Exchange.mk now u a]).length > 50
  · rw [if_pos h]
  · rw [if_neg h, Nat.sub_eq_zero_of_le (Nat.le_of_not_lt h), List.drop_zero]

/-- Keeping the last 50 elements commutes with later appends. -/
theorem drop_last50_append {α : Type} (l es : List α) :
    ((l.drop (l.length - 50)) ++ es).drop (((l.drop (l.length - 50)) ++ es).length - 50)
      = (l ++ es).drop ((l ++ es).length - 50) := by
  by_cases hl : l.length ≤ 50
  · rw [Nat.sub_eq_zero_of_le hl, List.drop_zero]
  · push_neg at hl
    have hk : l.length - 50 ≤ l.length := Nat.sub_le _ _
    have hdl : (l.drop (l.length - 50)).length = 50 := by
      rw [List.length_drop]; omega
    rw [List.length_append, List.length_append, hdl]
    have h1 : 50 + es.length - 50 = es.length := by omega
    have h2 : l.length + es.length - 50 = (l.length - 50) + es.length := by omega
    rw [h1, h2, ← List.drop_drop, List.drop_append_of_le_length hk]

/-- Folding `add_to_history` over a list of exchanges, starting from a
window of at most 50 entries, keeps exactly the last 50 of the
concatenation. -/
theorem foldl_add_to_history (es : List Exchange) :
    ∀ l : List Exchange, l.length ≤ 50 →
      es.foldl (fun h e => add_to_history h e.timestamp e.user e.assistant) l
        = (l ++ es).drop ((l ++ es).length - 50) := by
  induction es with
  | nil =>
    intro l hl
    simp [Nat.sub_eq_zero_of_le hl]
  | cons e es ih =>
    intro l hl
    rw [List.foldl_cons]
    have hexch : Exchange.mk e.timestamp e.user e.assistant = e := rfl
    have hstep : add_to_history l e.timestamp e.user e.assistant
        = (l ++ [e]).drop ((l ++ [e]).length - 50) := by
      rw [add_to_history_eq_drop, hexch]
    rw [hstep]
    have hlen : ((l ++ [e]).drop ((l ++ [e]).length - 50)).length ≤ 50 := by
      rw [List.length_drop]; omega
    rw [ih _ hlen, drop_last50_append (l ++ [e]) es]
    simp

/-- Equation lemma: `splitWsAux` on exhausted input with an empty
accumulator. -/
theorem splitWsAux_nil_nil : splitWsAux [] [] = [] := by
  simp [splitWsAux]

/-- Equation lemma: `splitWsAux` on exhausted input flushes a non-empty
accumulator. -/
theorem splitWsAux_nil_cons (a : Char) (as : List Char) :
    splitWsAux [] (a :: as) = [(a :: as).reverse] := by
  simp [splitWsAux]

/-- Equation lemma: a whitespace character with an empty accumulator is
skipped. -/
theorem splitWsAux_ws_nil (c : Char) (hc : c.isWhitespace = true) (cs : List Char) :
    splitWsAux (c :: cs) [] = splitWsAux cs [] := by
  simp [splitWsAux, hc]

/-- Equation lemma: a whitespace character flushes a non-empty
accumulator. -/
theorem splitWsAux_ws_cons (c : Char) (hc : c.isWhitespace = true) (cs : List Char)
    (a : Char) (as : List Char) :
    splitWsAux (c :: cs) (a :: as) = (a :: as).reverse :: splitWsAux cs [] := by
  simp [splitWsAux, hc]

/-- Equation lemma: a non-whitespace character extends the accumulator. -/
theorem splitWsAux_nonws (c : Char) (hc : c.isWhitespace = false) (cs acc : List Char) :
    splitWsAux (c :: cs) acc = splitWsAux cs (c :: acc) := by
  simp [splitWsAux, hc]

/-- Every word produced by `splitWsAux` is non-empty and whitespace-free,
provided the running accumulator is whitespace-free. -/
theorem splitWsAux_words (l : List Char) :
    ∀ acc : List Char, (∀ c ∈ acc, c.isWhitespace = false) →
      ∀ w ∈ splitWsAux l acc, w ≠ [] ∧ ∀ c ∈ w, c.isWhitespace = false := by
  induction l with
  | nil =>
    intro acc hacc w hw
    cases acc with
    | nil =>
      rw [splitWsAux_nil_nil] at hw
      exact absurd hw (List.not_mem_nil w)
    | cons a as =>
      rw [splitWsAux_nil_cons, List.mem_singleton] at hw
      subst hw
      refine ⟨by simp, ?_⟩
      intro c hc
      exact hacc c (List.mem_reverse.mp hc)
  | cons c cs ih =>
    intro acc hacc w hw
    by_cases hws : c.isWhitespace
    · cases acc with
      | nil =>
        rw [splitWsAux_ws_nil c hws] at hw
        exact ih [] (by simp) w hw
      | cons a as =>
        rw [splitWsAux_ws_cons c hws, List.mem_cons] at hw
        cases hw with
        | inl h1 =>
          subst h1
          refine ⟨by simp, ?_⟩
          intro d hd
          exact hacc d (List.mem_reverse.mp hd)
        | inr h2 => exact ih [] (by simp) w h2
    · rw [splitWsAux_nonws c (Bool.eq_false_iff.mpr hws)] at hw
      refine ih (c :: acc) ?_ w hw
      intro d hd
      cases hd with
      | head => exact Bool.eq_false_iff.mpr hws
      | tail _ hmem => exact hacc d hmem

/-- Every word produced by `splitWs` is non-empty and whitespace-free. -/
theorem splitWs_words (l : List Char) :
    ∀ w ∈ splitWs l, w ≠ [] ∧ ∀ c ∈ w, c.isWhitespace = false :=
  splitWsAux_words l [] (by simp)

/-- Feeding a whitespace-free word into `splitWsAux` shifts it into the
accumulator. -/
theorem splitWsAux_shift (w : List Char) (hw : ∀ c ∈ w, c.isWhitespace = false) :
    ∀ (rest acc : List Char), splitWsAux (w ++ rest) acc = splitWsAux rest (w.reverse ++ acc) := by
  induction w with
  | nil => intro rest acc; simp
  | cons c cs ih =>
    intro rest acc
    have hc : c.isWhitespace = false := hw c (List.mem_cons_self c cs)
    rw [List.cons_append, splitWsAux_nonws c hc]
    rw [ih (fun d hd => hw d (List.mem_cons_of_mem c hd)) rest (c :: acc)]
    congr 1
    simp

/-- Splitting the space-joined image of a list of non-empty whitespace-free
words recovers exactly those words. -/
theorem splitWs_joinSp (ws : List (List Char))
    (hws : ∀ w ∈ ws, w ≠ [] ∧ ∀ c ∈ w, c.isWhitespace = false) :
    splitWs (joinSp ws) = ws := by
  induction ws with
  | nil =>
    show splitWs (joinSp []) = []
    rw [show joinSp [] = [] from rfl]
    exact splitWsAux_nil_nil
  | cons w ws ih =>
    obtain ⟨hne, hchars⟩ := hws w (List.mem_cons_self w ws)
    cases ws with
    | nil =>
      show splitWs (joinSp [w]) = [w]
      have h1 : splitWsAux (w ++ []) [] = splitWsAux [] (w.reverse ++ []) :=
        splitWsAux_shift w hchars [] []
      simp only [List.append_nil] at h1
      unfold splitWs
      rw [show joinSp [w] = w from rfl, h1]
      cases hrev : w.reverse with
      | nil => exact absurd (by simpa using hrev) hne
      | cons a as =>
        rw [splitWsAux_nil_cons, ← hrev, List.reverse_reverse]
    | cons v vs =>
      have h1 : splitWsAux (w ++ (' ' :: joinSp (v :: vs))) []
          = splitWsAux (' ' :: joinSp (v :: vs)) (w.reverse ++ []) :=
        splitWsAux_shift w hchars (' ' :: joinSp (v :: vs)) []
      simp only [List.append_nil] at h1
      unfold splitWs
      rw [show joinSp (w :: v :: vs) = w ++ ' ' :: joinSp (v :: vs) from rfl, h1]
      cases hrev : w.reverse with
      | nil => exact absurd (by simpa using hrev) hne
      | cons a as =>
        have hsp : (' ' : Char).isWhitespace = true := by decide
        rw [splitWsAux_ws_cons ' ' hsp]
        have h2 : splitWsAux (joinSp (v :: vs)) [] = v :: vs :=
          ih (fun u hu => hws u (List.mem_cons_of_mem w hu))
        rw [h2, ← hrev, List.reverse_reverse]

/-- Words of the vocabulary are fixed points of `correct_word`, so the
word-wise correction map is the identity on them. -/
theorem map_correct_word_self (corr : String → Option String) (ws : List (List Char))
    (hvocab : ∀ w ∈ ws, corr ⟨w⟩ = some ⟨w⟩) :
    ws.map (fun w => (correct_word corr ⟨w⟩).data) = ws := by
  induction ws with
  | nil => rfl
  | cons w ws ih =>
    have hw : correct_word corr ⟨w⟩ = ⟨w⟩ := by
      unfold correct_word
      rw [hvocab w (List.mem_cons_self w ws)]
      simp
    simp only [List.map_cons, hw]
    rw [ih (fun v hv => hvocab v (List.mem_cons_of_mem w hv))]

/-! ## Claim theorems -/

/-- Claim C1 (amended): if the first knowledge-base entry whose lower-cased
prompt contains the matcher-normalized input (`fix_typo` applied to the
lower-cased once-corrected input) has a non-empty response, the pipeline
returns that response and makes no call to the model generation
capability. -/
theorem kb_match_short_circuits_model (env : Env) (st : AppState) (s now : String)
    (entry : KnowledgeEntry)
    (hfind : env.prompts_db.find?
        (fun e => strContainsSubstr (strToLower e.prompt)
          (fix_typo env.corr (strToLower (fix_typo env.corr s)))) = some entry)
    (hresp : entry.response ≠ "") :
    (generate_response env st s now).response = entry.response ∧
      (generate_response env st s now).model_calls = 0 := by
  have hdb : get_prompt_from_db env.corr env.prompts_db (fix_typo env.corr s)
      = some entry.response := by
    simp only [get_prompt_from_db, hfind]
  rw [generate_response_db_hit env st s now entry.response hdb hresp]
  exact ⟨rfl, rfl⟩

/-- Witness for C1: a concrete knowledge-base hit with the model loaded. -/
theorem kb_match_short_circuits_model_witness :
    (generate_response ⟨corr0, [⟨"hello there", "Hi!"⟩], some (fun _ => ModelOutcome.ok "ignored")⟩
        st0 "hello" "t").response = "Hi!" ∧
      (generate_response ⟨corr0, [⟨"hello there", "Hi!"⟩], some (fun _ => ModelOutcome.ok "ignored")⟩
        st0 "hello" "t").model_calls = 0 :=
  kb_match_short_circuits_model
    ⟨corr0, [⟨"hello there", "Hi!"⟩], some (fun _ => ModelOutcome.ok "ignored")⟩
    st0 "hello" "t" ⟨"hello there", "Hi!"⟩ (by decide) (by decide)

/-- Counterexample to C1 as stated: when the matching entry's response is
the empty string (falsy in Python), the claim's premise holds but the model
is called and the returned response is not that entry's response. -/
theorem kb_match_empty_response_cex :
    strContainsSubstr (strToLower "hello there")
        (fix_typo corr0 (strToLower (fix_typo corr0 "hello"))) = true ∧
      (generate_response ⟨corr0, [⟨"hello there", ""⟩],
          some (fun _ => ModelOutcome.ok "The model was invoked to answer this question")⟩
        st0 "hello" "t").model_calls = 1 ∧
      (generate_response ⟨corr0, [⟨"hello there", ""⟩],
          some (fun _ => ModelOutcome.ok "The model was invoked to answer this question")⟩
        st0 "hello" "t").response ≠ "" := by
  decide

/-- Claim C2 (amended): on a knowledge-base miss with a loaded model, if the
corrected input is a case-insensitive substring of the post-processed model
output, or the post-processed output is shorter than 15 characters, the
pipeline's result is exactly the fixed clarification string. -/
theorem degenerate_output_replaced (env : Env) (st : AppState) (s now raw : String)
    (gen : List ChatMsg → ModelOutcome)
    (hdb : truthy (get_prompt_from_db env.corr env.prompts_db (fix_typo env.corr s)) = false)
    (hm : env.model = some gen)
    (hraw : gen (build_messages st.chat_history (fix_typo env.corr s)) = .ok raw)
    (hcond : strContainsSubstr (strToLower (postprocess raw))
        (strToLower (fix_typo env.corr s)) = true
      ∨ (postprocess raw).length < 15) :
    (generate_response env st s now).response = clarification_prompt := by
  rw [generate_response_model_ok env st s now raw gen hdb hm hraw]
  rcases hcond with h | h
  · simp [h]
  · simp [h]

/-- Witness for C2: a short model output is replaced by the clarification
string. -/
theorem degenerate_output_replaced_witness :
    (generate_response ⟨corr0, [], some (fun _ => ModelOutcome.ok "hi")⟩ st0 "hey" "t").response
      = clarification_prompt :=
  degenerate_output_replaced ⟨corr0, [], some (fun _ => ModelOutcome.ok "hi")⟩ st0 "hey" "t" "hi"
    (fun _ => ModelOutcome.ok "hi") (by decide) rfl rfl (Or.inr (by decide))

/-- Counterexample to C2 as stated: the code tests whether the input is a
substring of the output, not the reverse; here the post-processed output is
a case-insensitive substring of the corrected input and at least 15
characters long, yet it is returned unchanged instead of the clarification
string. -/
theorem degenerate_output_direction_cex :
    (generate_response ⟨corr0, [], some (fun _ => ModelOutcome.ok "This is a test")⟩
        st0 "he said This is a test. indeed yes" "t").response = "This is a test." ∧
      strContainsSubstr (strToLower (fix_typo corr0 "he said This is a test. indeed yes"))
        (strToLower (postprocess "This is a test")) = true ∧
      ("This is a test." : String) ≠ clarification_prompt := by
  decide

/-- Claim C3 (amended): when the history file is readable, an append
rewrites the full list with the new record at the end, and the id assigned
to the new record is the length of the in-memory window plus one (not the
maximum persisted id plus one). -/
theorem save_to_history_appends_with_window_id (st : AppState) (u a now : String)
    (h : List HistoryRecord) (hfile : st.file = some h) :
    (save_to_history st u a now).file
        = some (h ++ [HistoryRecord.mk (st.chat_history.length + 1) u a]) ∧
      (save_to_history st u a now).chat_history
        = add_to_history st.chat_history now u a := by
  obtain ⟨ch, f⟩ := st
  have hf : f = some h := hfile
  subst hf
  exact ⟨rfl, rfl⟩

/-- Witness for C3: an append to an empty readable file from an empty
window assigns id 1. -/
theorem save_to_history_appends_with_window_id_witness :
    (save_to_history st0 "u" "a" "t").file = some [HistoryRecord.mk 1 "u" "a"] ∧
      (save_to_history st0 "u" "a" "t").chat_history = [Exchange.mk "t" "u" "a"] := by
  have h := save_to_history_appends_with_window_id st0 "u" "a" "t" [] rfl
  exact ⟨h.1.trans (by decide), h.2.trans (by decide)⟩

/-- Counterexample to C3 as stated: with a persisted list whose maximum id
is 5 and an empty in-memory window, the appended record receives id 1, not
5 + 1. -/
theorem save_to_history_id_cex :
    (save_to_history ⟨[], some [⟨5, "p", "r"⟩]⟩ "u" "a" "t").file
        = some [⟨5, "p", "r"⟩, ⟨1, "u", "a"⟩] ∧ (1 : Nat) ≠ 5 + 1 := by
  decide

/-- Claim C4 (amended): the history listing returns the parsed history file
when it is readable and otherwise an empty list; it is a total function of
the read outcome, so no read failure escapes. -/
theorem history_route_reads_file_or_empty (fileRead : Except String (List HistoryRecord)) :
    history_route fileRead = ⟨200, .json_list (fileRead.toOption.getD [])⟩ := by
  cases fileRead <;> rfl

/-- Counterexample to C4 as stated: on an unreadable file the route answers
an empty list even though the fallback modelled from the spec (the
in-memory window) is non-empty. -/
theorem history_route_no_window_fallback_cex :
    (history_route (.error "unreadable")).body = JsonBody.json_list [] ∧
      (history_list_spec (.error "unreadable") [⟨"t", "hi", "hello"⟩]).length = 1 := by
  decide

/-- Claim C5: a chat request whose message is empty or whitespace-only
after trimming is answered 400 with the documented error body, and neither
the in-memory window nor the durable history changes. -/
theorem empty_message_rejected_400 (env : Env) (st : AppState) (message : Option String)
    (now : String) (hempty : strTrim (message.getD "") = "") :
    chat_route env st (some message) now = (⟨400, .json_error "No message provided"⟩, st) := by
  simp [chat_route, hempty]

/-- Witness for C5 at a whitespace-only message. -/
theorem empty_message_rejected_400_witness :
    chat_route ⟨corr0, [], none⟩ st0 (some (some "   ")) "t"
      = (⟨400, JsonBody.json_error "No message provided"⟩, st0) :=
  empty_message_rejected_400 ⟨corr0, [], none⟩ st0 (some "   ") "t" (by decide)

/-- Claim C6: the in-memory window never exceeds 50 exchanges, and after
appending 51 exchanges to an empty window it holds exactly the most recent
50 in their original order. -/
theorem conversation_window_bounded (es : List Exchange) (h51 : es.length = 51) :
    window_after es = es.drop 1 ∧ (window_after es).length = 50 ∧
      ∀ fs : List Exchange, (window_after fs).length ≤ 50 := by
  have hgen : ∀ gs : List Exchange, window_after gs = gs.drop (gs.length - 50) := by
    intro gs
    unfold window_after
    rw [foldl_add_to_history gs [] (by simp)]
    simp
  refine ⟨?_, ?_, ?_⟩
  · rw [hgen, h51]
  · rw [hgen, List.length_drop, h51]
  · intro fs
    rw [hgen, List.length_drop]
    omega

/-- Witness for C6 with 51 identical exchanges. -/
theorem conversation_window_bounded_witness :
    window_after (List.replicate 51 (Exchange.mk "t" "u" "a"))
        = (List.replicate 51 (Exchange.mk "t" "u" "a")).drop 1 ∧
      (window_after (List.replicate 51 (Exchange.mk "t" "u" "a"))).length = 50 :=
  ⟨(conversation_window_bounded (List.replicate 51 (Exchange.mk "t" "u" "a")) (by simp)).1,
    (conversation_window_bounded (List.replicate 51 (Exchange.mk "t" "u" "a")) (by simp)).2.1⟩

/-- Claim C7: for inputs all of whose words are vocabulary words (each
corrects to itself), the normalizer is idempotent. -/
theorem fix_typo_idempotent_on_vocab (corr : String → Option String) (text : String)
    (hvocab : ∀ w ∈ splitWs text.data, corr ⟨w⟩ = some ⟨w⟩) :
    fix_typo corr (fix_typo corr text) = fix_typo corr text := by
  have hmap : (splitWs text.data).map (fun w => (correct_word corr ⟨w⟩).data)
      = splitWs text.data :=
    map_correct_word_self corr (splitWs text.data) hvocab
  have hinner : fix_typo corr text = ⟨joinSp (splitWs text.data)⟩ := by
    unfold fix_typo
    rw [hmap]
  have houter : fix_typo corr (⟨joinSp (splitWs text.data)⟩ : String)
      = ⟨joinSp (splitWs text.data)⟩ := by
    unfold fix_typo
    have hd : (⟨joinSp (splitWs text.data)⟩ : String).data = joinSp (splitWs text.data) := rfl
    rw [hd, splitWs_joinSp (splitWs text.data) (splitWs_words text.data), hmap]
  rw [hinner, houter]

/-- Witness for C7 over the two-word vocabulary `hello`, `world`. -/
theorem fix_typo_idempotent_on_vocab_witness :
    fix_typo corr7 (fix_typo corr7 "hello   world") = fix_typo corr7 "hello   world" :=
  fix_typo_idempotent_on_vocab corr7 "hello   world" (by decide)

/-- Claim C8 (amended): on a knowledge-base miss, a model that is not
loaded yields the canned fallback selected deterministically by the length
of the corrected input modulo the size of the fallback set, with no model
call; a loaded model whose call raises instead yields the fixed apology and
leaves the state unchanged. -/
theorem model_unavailable_fallback (env : Env) (st : AppState) (s now : String)
    (hdb : truthy (get_prompt_from_db env.corr env.prompts_db (fix_typo env.corr s)) = false) :
    (env.model = none →
      (generate_response env st s now).response
          = fallback_responses.getD ((fix_typo env.corr s).length % fallback_responses.length) ""
        ∧ (generate_response env st s now).model_calls = 0) ∧
      (∀ gen : List ChatMsg → ModelOutcome, env.model = some gen →
        gen (build_messages st.chat_history (fix_typo env.corr s)) = .err →
        (generate_response env st s now).response = apology_response ∧
          (generate_response env st s now).state = st) := by
  constructor
  · intro hm
    rw [generate_response_no_model env st s now hdb hm]
    exact ⟨rfl, rfl⟩
  · intro gen hm hraw
    rw [generate_response_model_err env st s now gen hdb hm hraw]
    exact ⟨rfl, rfl⟩

/-- Witness for C8: with no model loaded, the input `hi` (corrected length
2) receives the third canned fallback. -/
theorem model_unavailable_fallback_witness :
    (generate_response ⟨corr0, [], none⟩ st0 "hi" "t").response
        = fallback_responses.getD ((fix_typo corr0 "hi").length % fallback_responses.length) "" ∧
      (generate_response ⟨corr0, [], none⟩ st0 "hi" "t").model_calls = 0 :=
  (model_unavailable_fallback ⟨corr0, [], none⟩ st0 "hi" "t" (by decide)).1 rfl

/-- Counterexample to C8 as stated: a loaded model whose call raises
produces the fixed apology string, not the length-indexed canned
fallback. -/
theorem model_raise_apology_cex :
    (generate_response ⟨corr0, [], some (fun _ => ModelOutcome.err)⟩ st0 "hi" "t").response
        = apology_response ∧
      apology_response
        ≠ fallback_responses.getD ((fix_typo corr0 "hi").length % fallback_responses.length) "" := by
  decide

/-- Claim C10: the string the pipeline tests for containment against the
knowledge-base patterns is the typo corrector applied to the lower-cased
image of the already-corrected input — `fix_typo` twice with a lowering in
between — and this differs in general from matching on the once-corrected
lower-cased input. -/
theorem kb_matching_double_normalized :
    (∀ (corr : String → Option String) (prompts_db : List KnowledgeEntry) (s : String),
        get_prompt_from_db corr prompts_db (fix_typo corr s)
          = kb_lookup prompts_db (fix_typo corr (strToLower (fix_typo corr s)))) ∧
      ¬ (∀ (corr : String → Option String) (prompts_db : List KnowledgeEntry) (s : String),
          get_prompt_from_db corr prompts_db (fix_typo corr s)
            = kb_lookup prompts_db (strToLower (fix_typo corr s))) := by
  constructor
  · intro corr prompts_db s
    rfl
  · intro hall
    exact absurd (hall corrX [⟨"hello", "greet"⟩] "HELLO") (by decide)
